import Mathlib

/-!
Verification development for the ssv-keys repository.

The file embeds, as Lean definitions, the pieces of the repository that the
checked properties talk about:

* `KeySharesAction.getOperators` and the per-file key-shares build loop of
  `KeySharesAction.processKeystorePath` / `processFile`
  (`src/commands/actions/KeySharesAction`-style file);
* the `buildPayload` call made by `BuildTransactionAction.execute`;
* the core library parts that are only imported by the files above
  (Payload Assembler, Share Splitter encryption, Keystore Extractor,
  Key-Shares Item and Collection): those are modelled from the
  specification, and each such definition says so in its doc comment.

Theorems named after the checked claims follow the definitions.
-/

namespace SsvKeys

/-! ### JavaScript string helpers used by the command actions -/

/-- JS `String.prototype.split(',')` on the character list: splitting the
empty string yields one empty field, and every comma opens a new field. -/
def splitCommaChars : List Char → List (List Char)
  | [] => [[]]
  | c :: rest =>
    if c = ',' then [] :: splitCommaChars rest
    else
      match splitCommaChars rest with
      | [] => [[c]]
      | g :: gs => (c :: g) :: gs

/-- JS `s.split(',')` as used in `KeySharesAction.getOperators` and
`BuildTransactionAction.execute`. -/
def jsSplitComma (s : String) : List String :=
  (splitCommaChars s.data).map String.mk

/-- Value of a block of decimal digits. -/
def digitsVal (cs : List Char) : Nat :=
  cs.foldl (fun a c => a * 10 + (c.toNat - 48)) 0

/-- The unsigned part of JS `parseInt(s, 10)`: a non-empty decimal digit
prefix, `none` when the first character is not a digit (`NaN`). -/
def jsParseIntCore : List Char → Option Nat
  | [] => none
  | c :: rest =>
    if c.isDigit then some (digitsVal ((c :: rest).takeWhile Char.isDigit)) else none

/-- JS `parseInt(s, 10)`: optional leading whitespace, optional sign, then a
non-empty decimal digit prefix; `none` stands for `NaN`. -/
def jsParseInt (s : String) : Option Int :=
  match s.data.dropWhile Char.isWhitespace with
  | '-' :: rest => (jsParseIntCore rest).map (fun n => -(n : Int))
  | '+' :: rest => (jsParseIntCore rest).map (fun n => (n : Int))
  | cs => (jsParseIntCore cs).map (fun n => (n : Int))

/-! ### `KeySharesAction.getOperators` -/

/-- Operator record built by `KeySharesAction.getOperators`
(`{ id: number, operatorKey: string }`). -/
structure Operator where
  id : Int
  operatorKey : String
  deriving DecidableEq, Repr

/-- Errors thrown by `KeySharesAction.getOperators`:
`OperatorsCountsMismatchError` for differing list lengths, the generic
exception for empty entries, and the generic exception for an id that
`parseInt` turns into `NaN`. -/
inductive KeySharesActionError where
  | operatorsCountsMismatch
  | emptyEntry
  | invalidOperatorId (index : Nat) (entry : String)
  deriving DecidableEq, Repr

/-- The indexed `operatorIds.map(...)` body of `getOperators`: parse each id
string with `parseInt(. , 10)`, throw on `NaN`, and pair the parsed id with
the operator key at the same index. -/
def buildOperatorList (operatorKeys : List String) :
    Nat → List String → Except KeySharesActionError (List Operator)
  | _, [] => .ok []
  | index, idString :: rest =>
    match jsParseInt idString with
    | none => .error (.invalidOperatorId index idString)
    | some id =>
      (buildOperatorList operatorKeys (index + 1) rest).map
        (fun ops => { id := id, operatorKey := operatorKeys.getD index "" } :: ops)

/-- `KeySharesAction.getOperators`: splits `this.args.operator_ids` and
`this.args.operator_keys` on commas, throws `OperatorsCountsMismatchError`
when the counts differ, rejects empty entries, then maps each id string with
`parseInt(. , 10)` (throwing on `NaN`) and pairs it with the key at the same
index. -/
def getOperators (operator_ids operator_keys : String) :
    Except KeySharesActionError (List Operator) :=
  let operatorIds := jsSplitComma operator_ids
  let operatorKeys := jsSplitComma operator_keys
  if operatorIds.length ≠ operatorKeys.length then
    .error .operatorsCountsMismatch
  else if operatorIds.contains "" || operatorKeys.contains "" then
    .error .emptyEntry
  else
    buildOperatorList operatorKeys 0 operatorIds

/-- The per-entry validator of the interactive `--operators-ids` prompt in
`BuildTransactionAction.options`: accepts a number exactly when
`Number.isInteger(operatorId) && operatorId > 0`. -/
def operatorIdPromptAccepts (operatorId : Rat) : Bool :=
  operatorId.den = 1 && 0 < operatorId

instance {ε α : Type} [DecidableEq ε] [DecidableEq α] : DecidableEq (Except ε α) := fun x y =>
  match x, y with
  | .ok a, .ok b =>
    if h : a = b then isTrue (by rw [h]) else isFalse (by simp [h])
  | .error e, .error f =>
    if h : e = f then isTrue (by rw [h]) else isFalse (by simp [h])
  | .ok _, .error _ => isFalse (fun hc => Except.noConfusion hc)
  | .error _, .ok _ => isFalse (fun hc => Except.noConfusion hc)

/-! ### Facts about `getOperators` -/

theorem buildOperatorList_ok_length (operatorKeys : List String) :
    ∀ (index : Nat) (l : List String) (ops : List Operator),
      buildOperatorList operatorKeys index l = .ok ops → ops.length = l.length := by
  intro index l
  induction l generalizing index with
  | nil =>
    intro ops h
    simp only [buildOperatorList, Except.ok.injEq] at h
    simp [← h]
  | cons a t ih =>
    intro ops h
    unfold buildOperatorList at h
    cases hpi : jsParseInt a with
    | none => rw [hpi] at h; exact absurd h (by simp)
    | some id =>
      rw [hpi] at h
      cases hrec : buildOperatorList operatorKeys (index + 1) t with
      | error e => rw [hrec] at h; simp [Except.map] at h
      | ok tl =>
        rw [hrec] at h
        simp only [Except.map, Except.ok.injEq] at h
        subst h
        simp [ih (index + 1) tl hrec]

/-- C5: when the comma-separated operator-id list and operator-key list differ
in length, `getOperators` fails with `OperatorsCountsMismatchError` and
produces no operator list (hence no shares can be built from it). -/
theorem getOperators_count_mismatch (operator_ids operator_keys : String)
    (h : (jsSplitComma operator_ids).length ≠ (jsSplitComma operator_keys).length) :
    getOperators operator_ids operator_keys = .error .operatorsCountsMismatch ∧
    ∀ ops : List Operator, getOperators operator_ids operator_keys ≠ .ok ops := by
  have he : getOperators operator_ids operator_keys = .error .operatorsCountsMismatch := by
    unfold getOperators
    simp only [if_pos h]
  refine ⟨he, fun ops hc => ?_⟩
  rw [he] at hc
  exact Except.noConfusion hc

/-- Witness for C5 at a concrete input: two ids against one key. -/
theorem getOperators_count_mismatch_witness :
    getOperators "1,2" "key1" = .error .operatorsCountsMismatch ∧
    ∀ ops : List Operator, getOperators "1,2" "key1" ≠ .ok ops :=
  getOperators_count_mismatch "1,2" "key1" (by decide)

/-- C4 counterexample: `getOperators` accepts an operator-id list with a
duplicated id, and one with a zero and a negative id, returning them as
successfully constructed operator lists. -/
theorem getOperators_accepts_duplicate_and_nonpositive_ids :
    getOperators "2,2" "k1,k2" =
      .ok [{ id := 2, operatorKey := "k1" }, { id := 2, operatorKey := "k2" }] ∧
    getOperators "0,-3" "ka,kb" =
      .ok [{ id := 0, operatorKey := "ka" }, { id := -3, operatorKey := "kb" }] := by
  constructor
  · decide
  · decide

/-- C4 (amended): a successful `getOperators` run guarantees only that the id
and key counts match, that no entry is the empty string, and that one operator
is built per id entry; uniqueness and positivity of ids are not enforced
there — positivity is checked only by the interactive prompt validator of
`BuildTransactionAction`, which accepts exactly the positive integers. -/
theorem getOperators_success_shape (operator_ids operator_keys : String)
    (ops : List Operator) (h : getOperators operator_ids operator_keys = .ok ops) :
    (jsSplitComma operator_ids).length = (jsSplitComma operator_keys).length ∧
    (jsSplitComma operator_ids).contains "" = false ∧
    (jsSplitComma operator_keys).contains "" = false ∧
    ops.length = (jsSplitComma operator_ids).length ∧
    (∀ q : Rat, operatorIdPromptAccepts q = true ↔ q.den = 1 ∧ 0 < q) := by
  unfold getOperators at h
  by_cases h1 : (jsSplitComma operator_ids).length ≠ (jsSplitComma operator_keys).length
  · rw [if_pos h1] at h
    exact absurd h (by simp)
  · rw [if_neg h1] at h
    by_cases h2 :
        ((jsSplitComma operator_ids).contains "" || (jsSplitComma operator_keys).contains "")
          = true
    · rw [if_pos h2] at h
      exact absurd h (by simp)
    · rw [if_neg h2] at h
      have hor := Bool.or_eq_false_iff.mp (Bool.eq_false_iff.mpr h2)
      refine ⟨not_ne_iff.mp h1, hor.1, hor.2, ?_, ?_⟩
      · exact buildOperatorList_ok_length _ 0 _ ops h
      · intro q
        simp [operatorIdPromptAccepts]

/-- Witness for the amended C4 at a concrete input. -/
theorem getOperators_success_shape_witness :
    (jsSplitComma "1,2").length = (jsSplitComma "a,b").length ∧
    (jsSplitComma "1,2").contains "" = false ∧
    (jsSplitComma "a,b").contains "" = false ∧
    ([{ id := 1, operatorKey := "a" }, { id := 2, operatorKey := "b" }] :
      List Operator).length = (jsSplitComma "1,2").length ∧
    (∀ q : Rat, operatorIdPromptAccepts q = true ↔ q.den = 1 ∧ 0 < q) :=
  getOperators_success_shape "1,2" "a,b"
    [{ id := 1, operatorKey := "a" }, { id := 2, operatorKey := "b" }] (by decide)

/-! ### The payload-assembly calls made by the actions -/

/-- Modelled from the spec: the `EncryptShare` record produced by the Share
Splitter (`lib/Encryption` is not among the sources here) — the share's
public key, its encrypted private key, and the operator public key it was
encrypted under. -/
structure EncryptShare where
  operatorPublicKey : String
  privateKey : String
  publicKey : String
  deriving DecidableEq, Repr

/-- First argument of `KeySharesItem.buildPayload` as called by
`KeySharesAction.processFile`: `{ publicKey, operators, encryptedShares }`. -/
structure BuildPayloadMetadata where
  publicKey : String
  operators : List Operator
  encryptedShares : List EncryptShare
  deriving DecidableEq

/-- Second argument of `KeySharesItem.buildPayload` as called by
`KeySharesAction.processFile`: `{ ownerAddress, ownerNonce, privateKey }` —
it carries the raw validator private key. -/
structure BuildPayloadSignatureData where
  ownerAddress : String
  ownerNonce : Int
  privateKey : String
  deriving DecidableEq

/-- The argument pair `KeySharesAction.processFile` passes to
`keySharesItem.buildPayload` after extracting `{ privateKey, publicKey }`
from the keystore and building the encrypted shares. -/
def processFileBuildPayloadCall (privateKey publicKey : String)
    (encryptedShares : List EncryptShare) (operators : List Operator)
    (ownerAddress : String) (ownerNonce : Int) :
    BuildPayloadMetadata × BuildPayloadSignatureData :=
  ({ publicKey := publicKey, operators := operators, encryptedShares := encryptedShares },
   { ownerAddress := ownerAddress, ownerNonce := ownerNonce, privateKey := privateKey })

/-- The argument tuple `BuildTransactionAction.execute` passes to
`this.ssvKeys.buildPayload`: the raw private key first, then the comma-split
operator ids, the shares read from file, and the token amount. -/
def buildTransactionPayloadCall (privateKey operatorsIds : String)
    (encryptedShares : List EncryptShare) (tokenAmount : String) :
    String × List String × List EncryptShare × String :=
  (privateKey, jsSplitComma operatorsIds, encryptedShares, tokenAmount)

/-- C1 counterexample: two runs agreeing on every public and share input but
differing in the raw private key pass different argument tuples to payload
assembly, both in `KeySharesAction.processFile` and in
`BuildTransactionAction.execute` — the raw private scalar is an input to
payload assembly. -/
theorem payload_call_depends_on_private_key :
    processFileBuildPayloadCall "11" "pub" [] [] "owner" 0 ≠
      processFileBuildPayloadCall "22" "pub" [] [] "owner" 0 ∧
    buildTransactionPayloadCall "11" "1,2" [] "100" ≠
      buildTransactionPayloadCall "22" "1,2" [] "100" := by
  exact ⟨by decide, by decide⟩

/-- C1 (amended): the raw private key is threaded into payload assembly — as
the `privateKey` field of the signature-data argument in
`KeySharesAction.processFile` and as the first argument in
`BuildTransactionAction.execute` — while the remaining fields are exactly the
supplied public and share data. -/
theorem payload_build_inputs (privateKey publicKey ownerAddress : String)
    (encryptedShares : List EncryptShare) (operators : List Operator)
    (ownerNonce : Int) (operatorsIds tokenAmount : String) :
    (processFileBuildPayloadCall privateKey publicKey encryptedShares operators
        ownerAddress ownerNonce).2.privateKey = privateKey ∧
    (processFileBuildPayloadCall privateKey publicKey encryptedShares operators
        ownerAddress ownerNonce).1 =
      { publicKey := publicKey, operators := operators,
        encryptedShares := encryptedShares } ∧
    (buildTransactionPayloadCall privateKey operatorsIds encryptedShares
        tokenAmount).1 = privateKey :=
  ⟨rfl, rfl, rfl⟩

/-! ### Owner nonces across the keystore files processed in one run -/

/-- The `(file, ownerNonce)` argument pairs of the `processFile` calls made by
`KeySharesAction.processKeystorePath`: the validated file at position `index`
is processed with owner nonce `this.args.owner_nonce + index`. -/
def processKeystoreCalls (ownerNonce : Int) (validatedFiles : List String) :
    List (String × Int) :=
  validatedFiles.enum.map (fun p => (p.2, ownerNonce + p.1))

/-- C10: the key-shares item built for the validated keystore file at position
`i` is constructed with owner nonce `base + i`, so nonces are consecutive in
file order. -/
theorem processKeystore_nonce (ownerNonce : Int) (validatedFiles : List String)
    (i : Nat) (file : String) (h : validatedFiles[i]? = some file) :
    (processKeystoreCalls ownerNonce validatedFiles)[i]? =
      some (file, ownerNonce + i) := by
  simp [processKeystoreCalls, List.getElem?_map, List.getElem?_enum, h]

/-- Witness for C10 at a concrete input: three files, base nonce 5, the file
at position 2 gets nonce 7. -/
theorem processKeystore_nonce_witness :
    (processKeystoreCalls 5 ["f0", "f1", "f2"])[2]? =
      some ("f2", (5 : Int) + ((2 : Nat) : Int)) :=
  processKeystore_nonce 5 ["f0", "f1", "f2"] 2 "f2" (by decide)

/-! ### ABI byte-string codec

Modelled from the spec: the document's ABI convention for encoding tuples of
byte strings, integer arrays and integers (the encoding library used by the
Payload Assembler is not among the sources here). -/

/-- Modelled from the spec: ABI encoding of one byte string — length prefix,
then the bytes. -/
def encChunk (b : List Nat) : List Nat := b.length :: b

/-- Decoder matching `encChunk`: reads the length prefix and splits off the
bytes, returning the remaining input. -/
def decChunk : List Nat → Option (List Nat × List Nat)
  | [] => none
  | n :: rest => if n ≤ rest.length then some (rest.take n, rest.drop n) else none

/-- Modelled from the spec: ABI encoding of an array of byte strings — count
prefix, then each element `encChunk`-encoded. -/
def encChunks (xs : List (List Nat)) : List Nat :=
  xs.length :: (xs.map encChunk).flatten

/-- Decoder for a known number of `encChunk`-encoded elements. -/
def decChunksN : Nat → List Nat → Option (List (List Nat) × List Nat)
  | 0, rest => some ([], rest)
  | k + 1, rest =>
    match decChunk rest with
    | none => none
    | some (b, rest1) =>
      match decChunksN k rest1 with
      | none => none
      | some (bs, rest2) => some (b :: bs, rest2)

/-- Decoder matching `encChunks`. -/
def decChunks : List Nat → Option (List (List Nat) × List Nat)
  | [] => none
  | n :: rest => decChunksN n rest

theorem decChunk_encChunk (b rest : List Nat) :
    decChunk (encChunk b ++ rest) = some (b, rest) := by
  simp [encChunk, decChunk, List.take_left, List.drop_left]

theorem decChunksN_encChunks (xs : List (List Nat)) :
    ∀ rest : List Nat,
      decChunksN xs.length ((xs.map encChunk).flatten ++ rest) = some (xs, rest) := by
  induction xs with
  | nil => intro rest; simp [decChunksN]
  | cons a t ih =>
    intro rest
    simp [decChunksN, List.append_assoc, decChunk_encChunk, ih]

theorem decChunks_encChunks (xs : List (List Nat)) (rest : List Nat) :
    decChunks (encChunks xs ++ rest) = some (xs, rest) := by
  simp [encChunks, decChunks, decChunksN_encChunks]

/-! ### Payload Assembler -/

/-- Share data carried per operator into the Payload Assembler: the share's
public key and its encrypted private key, as byte strings. -/
structure ShareBytes where
  publicKey : List Nat
  encryptedKey : List Nat
  deriving DecidableEq, Repr

/-- The readable half of a deposit payload: the fields of the encoded tuple,
mirrored as a structure. -/
structure PayloadReadable where
  validatorPublicKey : List Nat
  operatorIds : List Nat
  sharePublicKeys : List (List Nat)
  encryptedShares : List (List Nat)
  tokenAmount : Nat
  deriving DecidableEq, Repr

/-- A payload: the readable structure plus the raw ABI-encoded byte string of
the same fields. -/
structure Payload where
  readable : PayloadReadable
  raw : List Nat
  deriving DecidableEq, Repr

/-- Error of the Payload Assembler: duplicate operator ids prevent a total
order. -/
inductive BuildPayloadError where
  | orderingError
  deriving DecidableEq, Repr

/-- Modelled from the spec: ABI encoding of the payload tuple
`(validator_public_key, operator_ids, share_public_keys, encrypted_shares,
token_amount)`. -/
def abiEncodePayload (r : PayloadReadable) : List Nat :=
  encChunk r.validatorPublicKey ++ encChunk r.operatorIds ++
    encChunks r.sharePublicKeys ++ encChunks r.encryptedShares ++ [r.tokenAmount]

/-- Decoder matching `abiEncodePayload`. -/
def abiDecodePayload (l : List Nat) : Option PayloadReadable :=
  match decChunk l with
  | none => none
  | some (vpk, r1) =>
    match decChunk r1 with
    | none => none
    | some (ids, r2) =>
      match decChunks r2 with
      | none => none
      | some (spks, r3) =>
        match decChunks r3 with
        | none => none
        | some (encs, r4) =>
          match r4 with
          | [amount] =>
            some { validatorPublicKey := vpk, operatorIds := ids,
                   sharePublicKeys := spks, encryptedShares := encs,
                   tokenAmount := amount }
          | _ => none

theorem abiDecodePayload_encode (r : PayloadReadable) :
    abiDecodePayload (abiEncodePayload r) = some r := by
  simp [abiEncodePayload, abiDecodePayload, List.append_assoc,
    decChunk_encChunk, decChunks_encChunks]

/-- Comparison used to co-sort `(operator_id, share)` pairs: ascending by
operator id. -/
def pairLE (a b : Nat × ShareBytes) : Prop := a.1 ≤ b.1

instance : DecidableRel pairLE := fun a b => inferInstanceAs (Decidable (a.1 ≤ b.1))

instance : IsTotal (Nat × ShareBytes) pairLE := ⟨fun a b => Nat.le_total a.1 b.1⟩

instance : IsTrans (Nat × ShareBytes) pairLE := ⟨fun _ _ _ => Nat.le_trans⟩

/-- Strict version of `pairLE`. -/
def pairLT (a b : Nat × ShareBytes) : Prop := a.1 < b.1

instance : IsAntisymm (Nat × ShareBytes) pairLT :=
  ⟨fun a _ h1 h2 => absurd (Nat.lt_trans h1 h2) (Nat.lt_irrefl a.1)⟩

/-- The readable structure assembled by the Payload Assembler: the fields of
the encoded tuple, with the `(operator_id, share)` pairs co-sorted ascending
by operator id. -/
def builtReadable (validatorPublicKey : List Nat)
    (pairs : List (Nat × ShareBytes)) (tokenAmount : Nat) : PayloadReadable :=
  { validatorPublicKey := validatorPublicKey
    operatorIds := (List.insertionSort pairLE pairs).map Prod.fst
    sharePublicKeys := (List.insertionSort pairLE pairs).map (fun q => q.2.publicKey)
    encryptedShares := (List.insertionSort pairLE pairs).map (fun q => q.2.encryptedKey)
    tokenAmount := tokenAmount }

/-- Modelled from the spec: the Payload Assembler `build`
(`SSVKeys.buildPayload` itself is not among the sources here). Co-sorts the
`(operator_id, share)` pairs ascending by operator id, fails with
`OrderingError` when an operator id is duplicated, and produces the readable
structure together with the raw ABI encoding of the same tuple. -/
def buildPayload (validatorPublicKey : List Nat)
    (pairs : List (Nat × ShareBytes)) (tokenAmount : Nat) :
    Except BuildPayloadError Payload :=
  if (pairs.map Prod.fst).Nodup then
    .ok { readable := builtReadable validatorPublicKey pairs tokenAmount,
          raw := abiEncodePayload (builtReadable validatorPublicKey pairs tokenAmount) }
  else
    .error .orderingError

theorem insertionSort_pairLT_sorted (pairs : List (Nat × ShareBytes))
    (hnd : (pairs.map Prod.fst).Nodup) :
    List.Sorted pairLT (List.insertionSort pairLE pairs) := by
  have hs : List.Sorted pairLE (List.insertionSort pairLE pairs) :=
    List.sorted_insertionSort pairLE pairs
  have hperm : (List.insertionSort pairLE pairs).Perm pairs :=
    List.perm_insertionSort pairLE pairs
  have hnd2 : ((List.insertionSort pairLE pairs).map Prod.fst).Nodup :=
    ((hperm.map Prod.fst).nodup_iff).mpr hnd
  have hne : List.Pairwise (fun a b : Nat × ShareBytes => a.1 ≠ b.1)
      (List.insertionSort pairLE pairs) := by
    rw [List.Nodup, List.pairwise_map] at hnd2
    exact hnd2
  exact (hs.and hne).imp (fun hab => Nat.lt_of_le_of_ne hab.1 hab.2)

theorem insertionSort_eq_of_perm (pairs pairs2 : List (Nat × ShareBytes))
    (hnd : (pairs.map Prod.fst).Nodup) (hperm : pairs2.Perm pairs) :
    List.insertionSort pairLE pairs2 = List.insertionSort pairLE pairs := by
  have hnd2 : (pairs2.map Prod.fst).Nodup :=
    ((hperm.map Prod.fst).nodup_iff).mpr hnd
  exact List.eq_of_perm_of_sorted
    ((List.perm_insertionSort pairLE pairs2).trans
      (hperm.trans (List.perm_insertionSort pairLE pairs).symm))
    (insertionSort_pairLT_sorted pairs2 hnd2)
    (insertionSort_pairLT_sorted pairs hnd)

/-- C2: for pairwise-distinct operator ids, the Payload Assembler sorts the
`(operator_id, share)` pairs strictly ascending by id whatever the input
order, the same payload results from any permutation of the input, the raw
ABI encoding decodes back to the readable structure (ids and share arrays
aligned through one common permutation), and `OrderingError` is returned
exactly when a duplicate operator id is present. -/
theorem buildPayload_sorted_deterministic (validatorPublicKey : List Nat)
    (pairs pairs2 : List (Nat × ShareBytes)) (tokenAmount : Nat)
    (hnd : (pairs.map Prod.fst).Nodup) (hperm : pairs2.Perm pairs) :
    ∃ p : Payload,
      buildPayload validatorPublicKey pairs tokenAmount = .ok p ∧
      buildPayload validatorPublicKey pairs2 tokenAmount = .ok p ∧
      List.Sorted (· < ·) p.readable.operatorIds ∧
      abiDecodePayload p.raw = some p.readable ∧
      (∃ sorted : List (Nat × ShareBytes), sorted.Perm pairs ∧
        p.readable.operatorIds = sorted.map Prod.fst ∧
        p.readable.sharePublicKeys = sorted.map (fun q => q.2.publicKey) ∧
        p.readable.encryptedShares = sorted.map (fun q => q.2.encryptedKey)) ∧
      (∀ qs : List (Nat × ShareBytes),
        buildPayload validatorPublicKey qs tokenAmount = .error .orderingError ↔
          ¬ (qs.map Prod.fst).Nodup) := by
  have hnd2 : (pairs2.map Prod.fst).Nodup :=
    ((hperm.map Prod.fst).nodup_iff).mpr hnd
  have hsorteq := insertionSort_eq_of_perm pairs pairs2 hnd hperm
  have hreadeq : builtReadable validatorPublicKey pairs2 tokenAmount =
      builtReadable validatorPublicKey pairs tokenAmount := by
    unfold builtReadable
    rw [hsorteq]
  refine ⟨Payload.mk (builtReadable validatorPublicKey pairs tokenAmount)
      (abiEncodePayload (builtReadable validatorPublicKey pairs tokenAmount)),
    ?_, ?_, ?_, ?_, ?_, ?_⟩
  · unfold buildPayload
    rw [if_pos hnd]
  · unfold buildPayload
    rw [if_pos hnd2, hreadeq]
  · have hlt := insertionSort_pairLT_sorted pairs hnd
    rw [List.Sorted, builtReadable, List.pairwise_map]
    exact hlt
  · exact abiDecodePayload_encode _
  · exact ⟨List.insertionSort pairLE pairs,
      List.perm_insertionSort pairLE pairs, rfl, rfl, rfl⟩
  · intro qs
    by_cases hq : (qs.map Prod.fst).Nodup
    · constructor
      · intro he
        unfold buildPayload at he
        rw [if_pos hq] at he
        exact absurd he (by simp)
      · intro hc
        exact absurd hq hc
    · constructor
      · intro _
        exact hq
      · intro _
        unfold buildPayload
        rw [if_neg hq]

/-- Witness for C2 at the spec's scenario: operators supplied in the order
`[6, 2, 4]` (and a permutation of it), token amount `123456789`. -/
theorem buildPayload_sorted_deterministic_witness :
    ∃ p : Payload,
      buildPayload [9] [(6, ⟨[61], [62]⟩), (2, ⟨[21], [22]⟩), (4, ⟨[41], [42]⟩)]
          123456789 = .ok p ∧
      buildPayload [9] [(2, ⟨[21], [22]⟩), (4, ⟨[41], [42]⟩), (6, ⟨[61], [62]⟩)]
          123456789 = .ok p ∧
      List.Sorted (· < ·) p.readable.operatorIds ∧
      abiDecodePayload p.raw = some p.readable ∧
      (∃ sorted : List (Nat × ShareBytes),
        sorted.Perm [(6, ⟨[61], [62]⟩), (2, ⟨[21], [22]⟩), (4, ⟨[41], [42]⟩)] ∧
        p.readable.operatorIds = sorted.map Prod.fst ∧
        p.readable.sharePublicKeys = sorted.map (fun q => q.2.publicKey) ∧
        p.readable.encryptedShares = sorted.map (fun q => q.2.encryptedKey)) ∧
      (∀ qs : List (Nat × ShareBytes),
        buildPayload [9] qs 123456789 = .error .orderingError ↔
          ¬ (qs.map Prod.fst).Nodup) :=
  buildPayload_sorted_deterministic [9]
    [(6, ⟨[61], [62]⟩), (2, ⟨[21], [22]⟩), (4, ⟨[41], [42]⟩)]
    [(2, ⟨[21], [22]⟩), (4, ⟨[41], [42]⟩), (6, ⟨[61], [62]⟩)]
    123456789 (by decide) (by decide)

/-! ### Share Splitter encryption -/

/-- Modelled from the spec: the asymmetric-encryption public key derivable
from an operator's private key (the asymmetric primitive is an external
building block, not among the sources here). -/
def asymPublicKeyOf (privKey : Nat) : Nat := 2 * privKey + 1

/-- Modelled from the spec: an asymmetric ciphertext — the non-deterministic
padding chosen at encryption time together with the masked message body. -/
structure AsymCiphertext where
  pad : Nat
  body : Nat
  deriving DecidableEq, Repr

/-- Modelled from the spec: encryption under a public key with an explicit
padding choice (the padding non-determinism is supplied by the caller). -/
def asymEncrypt (publicKey message pad : Nat) : AsymCiphertext :=
  ⟨pad, message + publicKey * (pad + 1)⟩

/-- Modelled from the spec: decryption with the private key, re-deriving the
mask from the private key's public half. -/
def asymDecrypt (privKey : Nat) (c : AsymCiphertext) : Nat :=
  c.body - asymPublicKeyOf privKey * (c.pad + 1)

/-- A stand-in prime for the scalar-field order of the signature curve. -/
def fieldOrder : Nat := 1021

/-- Modelled from the spec: Shamir-style polynomial evaluation over the
scalar field. -/
def polyEval (coeffs : List Nat) (x : Nat) : Nat :=
  coeffs.foldr (fun c acc => (c + acc * x) % fieldOrder) 0

/-- Modelled from the spec: operator `operatorId`'s plaintext contribution in
the threshold split of `privateScalar`, the secret scalar being the constant
coefficient of the sharing polynomial. -/
def contributionFor (privateScalar : Nat) (coeffs : List Nat)
    (operatorId : Nat) : Nat :=
  polyEval (privateScalar :: coeffs) operatorId

/-- Modelled from the spec: the share public key independently derivable from
a contribution (exponentiation in the signature group). -/
def blsPublicKeyOf (s : Nat) : Nat := (3 ^ s) % 2003

/-- A share as produced by the Share Splitter: operator id, the share's
public key, and the contribution encrypted under the operator's asymmetric
public key. -/
structure SplitShare where
  operatorId : Nat
  publicKey : Nat
  encryptedKey : AsymCiphertext
  deriving DecidableEq, Repr

/-- Modelled from the spec: `split` — one share per operator
`(id, asymmetric public key)`, the contribution encrypted under that
operator's public key with padding `pads id`. -/
def splitShares (privateScalar : Nat) (coeffs : List Nat)
    (operators : List (Nat × Nat)) (pads : Nat → Nat) : List SplitShare :=
  operators.map (fun o =>
    SplitShare.mk o.1 (blsPublicKeyOf (contributionFor privateScalar coeffs o.1))
      (asymEncrypt o.2 (contributionFor privateScalar coeffs o.1) (pads o.1)))

/-- C3: for an operator holding the private key matching the public key its
share was encrypted under, decrypting the share's encrypted key yields
exactly that operator's plaintext contribution, and its share public key is
the one derivable from the contribution alone — while encryptions under
distinct paddings yield distinct ciphertexts. -/
theorem splitShares_decrypt (privateScalar : Nat) (coeffs : List Nat)
    (operators : List (Nat × Nat)) (pads : Nat → Nat)
    (i oid opub k : Nat)
    (hop : operators[i]? = some (oid, opub))
    (hk : opub = asymPublicKeyOf k) :
    ∃ sh : SplitShare,
      (splitShares privateScalar coeffs operators pads)[i]? = some sh ∧
      sh.operatorId = oid ∧
      asymDecrypt k sh.encryptedKey = contributionFor privateScalar coeffs oid ∧
      sh.publicKey = blsPublicKeyOf (contributionFor privateScalar coeffs oid) ∧
      (∀ p1 p2 : Nat, p1 ≠ p2 →
        asymEncrypt opub (contributionFor privateScalar coeffs oid) p1 ≠
          asymEncrypt opub (contributionFor privateScalar coeffs oid) p2) := by
  refine ⟨SplitShare.mk oid
      (blsPublicKeyOf (contributionFor privateScalar coeffs oid))
      (asymEncrypt opub (contributionFor privateScalar coeffs oid) (pads oid)),
    ?_, rfl, ?_, rfl, ?_⟩
  · simp [splitShares, List.getElem?_map, hop]
  · rw [hk]
    simp [asymEncrypt, asymDecrypt]
  · intro p1 p2 hne hc
    exact hne (congrArg AsymCiphertext.pad hc)

/-- Witness for C3 at a concrete input: operator 2 with asymmetric key pair
`(7, 15)`, scalar 5, one blinding coefficient. -/
theorem splitShares_decrypt_witness :
    ∃ sh : SplitShare,
      (splitShares 5 [3] [(2, 15)] (fun _ => 4))[0]? = some sh ∧
      sh.operatorId = 2 ∧
      asymDecrypt 7 sh.encryptedKey = contributionFor 5 [3] 2 ∧
      sh.publicKey = blsPublicKeyOf (contributionFor 5 [3] 2) ∧
      (∀ p1 p2 : Nat, p1 ≠ p2 →
        asymEncrypt 15 (contributionFor 5 [3] 2) p1 ≠
          asymEncrypt 15 (contributionFor 5 [3] 2) p2) :=
  splitShares_decrypt 5 [3] [(2, 15)] (fun _ => 4) 0 2 15 7 (by decide) (by decide)

/-! ### Keystore Extractor -/

/-- Modelled from the spec: a keystore file — key-derivation parameters,
cipher parameters, the stored checksum, the ciphertext, and the plaintext
public key (the extractor is not among the sources here). -/
structure Keystore where
  kdfSalt : List Nat
  kdfRounds : Nat
  cipherIV : List Nat
  ciphertext : List Nat
  checksum : Nat
  publicKey : List Nat
  deriving DecidableEq, Repr

/-- Errors of the Keystore Extractor. -/
inductive KeystoreError where
  | invalidKeystoreFormat
  | invalidPassword
  deriving DecidableEq, Repr

/-- Modelled from the spec: the structural schema check — KDF parameters,
cipher parameters and ciphertext must be present and plausible. -/
def keystoreStructureOk (ks : Keystore) : Bool :=
  0 < ks.kdfRounds && ks.cipherIV.length = 16 && ks.ciphertext ≠ []

/-- Modelled from the spec: the symmetric key derived from the password by
the keystore's declared key-derivation function. -/
def kdfDerive (password salt : List Nat) (rounds : Nat) : Nat :=
  (password ++ salt).foldl (fun a c => (a * 31 + c) % 65536) rounds

/-- Modelled from the spec: the checksum recomputed from the derived key and
the ciphertext. -/
def keystoreChecksum (key : Nat) (ciphertext : List Nat) : Nat :=
  ciphertext.foldl (fun a c => (a * 131 + c) % 65536) key

/-- Modelled from the spec: symmetric decryption of the ciphertext with the
derived key and the keystore's IV. -/
def cipherDecrypt (key : Nat) (iv ciphertext : List Nat) : List Nat :=
  ciphertext.map (fun b => (b + key + iv.foldl (· + ·) 0) % 256)

/-- Modelled from the spec: `decrypt(keystore_bytes, password)` — validates
the schema, derives the symmetric key, recomputes the checksum and compares
it against the stored value before returning any key material; a checksum
mismatch is reported as a wrong password. -/
def decryptKeystore (ks : Keystore) (password : List Nat) :
    Except KeystoreError (List Nat × List Nat) :=
  if keystoreStructureOk ks then
    let key := kdfDerive password ks.kdfSalt ks.kdfRounds
    if keystoreChecksum key ks.ciphertext = ks.checksum then
      .ok (cipherDecrypt key ks.cipherIV ks.ciphertext, ks.publicKey)
    else
      .error .invalidPassword
  else
    .error .invalidKeystoreFormat

/-- C8: on a structurally valid keystore, whenever the recomputed checksum
differs from the stored one the extractor returns `InvalidPasswordError`, and
it returns no key material at all in that case. -/
theorem decryptKeystore_wrong_password (ks : Keystore) (password : List Nat)
    (hs : keystoreStructureOk ks = true)
    (hc : keystoreChecksum (kdfDerive password ks.kdfSalt ks.kdfRounds)
            ks.ciphertext ≠ ks.checksum) :
    decryptKeystore ks password = .error .invalidPassword ∧
    ∀ material : List Nat × List Nat,
      decryptKeystore ks password ≠ .ok material := by
  have he : decryptKeystore ks password = .error .invalidPassword := by
    unfold decryptKeystore
    rw [if_pos hs, if_neg hc]
  refine ⟨he, fun m hm => ?_⟩
  rw [he] at hm
  exact Except.noConfusion hm

/-- Witness for C8 at a concrete keystore whose stored checksum does not
match the recomputed one. -/
theorem decryptKeystore_wrong_password_witness :
    decryptKeystore (Keystore.mk [1] 1 (List.replicate 16 0) [7] 0 [9]) [2] =
      .error .invalidPassword ∧
    ∀ material : List Nat × List Nat,
      decryptKeystore (Keystore.mk [1] 1 (List.replicate 16 0) [7] 0 [9]) [2] ≠
        .ok material :=
  decryptKeystore_wrong_password (Keystore.mk [1] 1 (List.replicate 16 0) [7] 0 [9])
    [2] (by decide) (by decide)

/-! ### Key-Shares Item -/

/-- Modelled from the spec: the BLS deserialization check for a public key —
a 48-byte string (the BLS library is an external building block). -/
def blsPublicKeyOk (b : List Nat) : Bool :=
  b.length = 48 && b.all (fun c => c < 256)

/-- An encrypted share is well-formed when it ABI-decodes as a single byte
string with nothing left over. -/
def abiByteStringOk (b : List Nat) : Bool :=
  match decChunk b with
  | some (_, rest) => rest.isEmpty
  | none => false

/-- An operator entry held by a key-shares item. -/
structure OperatorEntry where
  id : Nat
  publicKey : List Nat
  deriving DecidableEq, Repr

/-- Modelled from the spec: the state of a `KeySharesItem` — version,
operators, validator public key, share arrays, and the optional payload
(`lib/KeyShares/KeySharesItem` is not among the sources here; only the
`KeySharesKeysV2` declaration file is). -/
structure ItemState where
  version : Nat
  operators : List OperatorEntry
  validatorPublicKey : List Nat
  sharePublicKeys : List (List Nat)
  shareEncryptedKeys : List (List Nat)
  payload : Option Payload
  deriving DecidableEq, Repr

/-- The supported key-shares document schema versions. -/
def supportedVersions : List Nat := [2, 3, 4]

/-- The error kinds raised by item validation; each names the offending
field. -/
inductive ItemError where
  | arrayShape (field : String)
  | invalidPublicKey (field : String)
  | invalidEncryptedShare (field : String)
  | unsupportedVersion (version : Nat)
  deriving DecidableEq, Repr

/-- Modelled from the spec: the typed partial updates accepted by a
`KeySharesItem`. -/
inductive ItemUpdate where
  | setOperators (operators : List OperatorEntry) (validatorPublicKey : List Nat)
  | setShares (sharePublicKeys shareEncryptedKeys : List (List Nat))
  | setPayload (payload : Payload)
  deriving DecidableEq, Repr

/-- Modelled from the spec: the per-variant validators run before an update
is committed — array shape, BLS deserialization of public keys, ABI
decodability of encrypted shares. -/
def validateUpdate (u : ItemUpdate) : Except ItemError Unit :=
  match u with
  | .setOperators _ validatorPublicKey =>
    if blsPublicKeyOk validatorPublicKey then .ok ()
    else .error (.invalidPublicKey "publicKey")
  | .setShares spks encs =>
    if spks.length ≠ encs.length then .error (.arrayShape "shares")
    else if ¬ spks.all blsPublicKeyOk then
      .error (.invalidPublicKey "sharePublicKeys")
    else if ¬ encs.all abiByteStringOk then
      .error (.invalidEncryptedShare "encryptedKeys")
    else .ok ()
  | .setPayload _ => .ok ()

/-- The field merge of one update, without validation. -/
def mergeUpdate (st : ItemState) (u : ItemUpdate) : ItemState :=
  match u with
  | .setOperators ops vpk => { st with operators := ops, validatorPublicKey := vpk }
  | .setShares spks encs =>
    { st with sharePublicKeys := spks, shareEncryptedKeys := encs }
  | .setPayload p => { st with payload := some p }

/-- Modelled from the spec: `apply_update` — validate the variant, then
commit; on a validation failure the prior state is returned unchanged
alongside the error. -/
def applyUpdate (st : ItemState) (u : ItemUpdate) : ItemState × Option ItemError :=
  match validateUpdate u with
  | .ok _ => (mergeUpdate st u, none)
  | .error e => (st, some e)

/-- C6: every partial update is atomic — whenever one of its validators
fails, the state after the call equals the state before it, the reported
error is exactly the validator's, and its kind names the offending field of
that update variant (a `setPayload` update never fails). -/
theorem applyUpdate_atomic (st : ItemState) (u : ItemUpdate) (e : ItemError)
    (h : (applyUpdate st u).2 = some e) :
    (applyUpdate st u).1 = st ∧
    validateUpdate u = .error e ∧
    (∀ ops vpk, u = .setOperators ops vpk → e = .invalidPublicKey "publicKey") ∧
    (∀ spks encs, u = .setShares spks encs →
      e = .arrayShape "shares" ∨ e = .invalidPublicKey "sharePublicKeys" ∨
        e = .invalidEncryptedShare "encryptedKeys") ∧
    (∀ p, u ≠ .setPayload p) := by
  cases hv : validateUpdate u with
  | ok v =>
    rw [applyUpdate, hv] at h
    exact absurd h (by simp)
  | error e2 =>
    rw [applyUpdate, hv] at h
    simp only [Option.some.injEq] at h
    subst h
    refine ⟨by rw [applyUpdate, hv], rfl, ?_, ?_, ?_⟩
    · intro ops vpk hu
      subst hu
      simp only [validateUpdate] at hv
      by_cases hb : blsPublicKeyOk vpk = true
      · rw [if_pos hb] at hv
        exact absurd hv (by simp)
      · rw [if_neg hb] at hv
        simp only [Except.error.injEq] at hv
        exact hv.symm
    · intro spks encs hu
      subst hu
      simp only [validateUpdate] at hv
      by_cases h1 : spks.length ≠ encs.length
      · rw [if_pos h1] at hv
        simp only [Except.error.injEq] at hv
        exact Or.inl hv.symm
      · rw [if_neg h1] at hv
        by_cases h2 : ¬ spks.all blsPublicKeyOk = true
        · rw [if_pos h2] at hv
          simp only [Except.error.injEq] at hv
          exact Or.inr (Or.inl hv.symm)
        · rw [if_neg h2] at hv
          by_cases h3 : ¬ encs.all abiByteStringOk = true
          · rw [if_pos h3] at hv
            simp only [Except.error.injEq] at hv
            exact Or.inr (Or.inr hv.symm)
          · rw [if_neg h3] at hv
            exact absurd hv (by simp)
    · intro p hu
      subst hu
      simp only [validateUpdate] at hv
      exact Except.noConfusion hv

/-- Witness for C6 at a concrete failing update: a `setShares` with one share
public key against two encrypted keys, applied to a concrete item. -/
theorem applyUpdate_atomic_witness :
    (applyUpdate (ItemState.mk 3 [] [] [] [] none)
        (ItemUpdate.setShares [[1]] [[1, 2], [1, 3]])).1 =
      ItemState.mk 3 [] [] [] [] none ∧
    validateUpdate (ItemUpdate.setShares [[1]] [[1, 2], [1, 3]]) =
      .error (.arrayShape "shares") ∧
    (∀ ops vpk, ItemUpdate.setShares [[1]] [[1, 2], [1, 3]] =
      .setOperators ops vpk → ItemError.arrayShape "shares" = .invalidPublicKey "publicKey") ∧
    (∀ spks encs, ItemUpdate.setShares [[1]] [[1, 2], [1, 3]] =
      .setShares spks encs →
      ItemError.arrayShape "shares" = .arrayShape "shares" ∨
        ItemError.arrayShape "shares" = .invalidPublicKey "sharePublicKeys" ∨
        ItemError.arrayShape "shares" = .invalidEncryptedShare "encryptedKeys") ∧
    (∀ p, ItemUpdate.setShares [[1]] [[1, 2], [1, 3]] ≠ .setPayload p) :=
  applyUpdate_atomic (ItemState.mk 3 [] [] [] [] none)
    (ItemUpdate.setShares [[1]] [[1, 2], [1, 3]])
    (ItemError.arrayShape "shares") (by decide)

/-! ### Item serialization -/

/-- Encoding of one operator entry: the id, then its public key as an ABI
chunk. -/
def encOperator (o : OperatorEntry) : List Nat :=
  o.id :: encChunk o.publicKey

/-- Decoder matching `encOperator`. -/
def decOperator : List Nat → Option (OperatorEntry × List Nat)
  | [] => none
  | i :: rest =>
    match decChunk rest with
    | none => none
    | some (pk, rest1) => some (OperatorEntry.mk i pk, rest1)

/-- Decoder for a known number of operator entries. -/
def decOperatorsN : Nat → List Nat → Option (List OperatorEntry × List Nat)
  | 0, rest => some ([], rest)
  | k + 1, rest =>
    match decOperator rest with
    | none => none
    | some (o, rest1) =>
      match decOperatorsN k rest1 with
      | none => none
      | some (os, rest2) => some (o :: os, rest2)

/-- Encoding of an operator list: count prefix, then the entries. -/
def encOperators (os : List OperatorEntry) : List Nat :=
  os.length :: (os.map encOperator).flatten

/-- Decoder matching `encOperators`. -/
def decOperators : List Nat → Option (List OperatorEntry × List Nat)
  | [] => none
  | n :: rest => decOperatorsN n rest

/-- Encoding of the optional payload: a presence tag, then the readable
tuple's ABI encoding and the raw bytes as chunks. -/
def encPayloadOpt : Option Payload → List Nat
  | none => [0]
  | some p => 1 :: (encChunk (abiEncodePayload p.readable) ++ encChunk p.raw)

/-- Decoder matching `encPayloadOpt`. -/
def decPayloadOpt : List Nat → Option (Option Payload × List Nat)
  | [] => none
  | 0 :: rest => some (none, rest)
  | 1 :: rest =>
    match decChunk rest with
    | none => none
    | some (enc, rest1) =>
      match abiDecodePayload enc with
      | none => none
      | some readable =>
        match decChunk rest1 with
        | none => none
        | some (raw, rest2) => some (some (Payload.mk readable raw), rest2)
  | _ :: _ => none

/-- Modelled from the spec: `to_document_fragment` — canonical serialization
of one key-shares item. -/
def serializeItem (it : ItemState) : List Nat :=
  it.version :: (encOperators it.operators ++ encChunk it.validatorPublicKey ++
    encChunks it.sharePublicKeys ++ encChunks it.shareEncryptedKeys ++
    encPayloadOpt it.payload)

/-- Structural decoder matching `serializeItem`. -/
def decodeItem : List Nat → Option (ItemState × List Nat)
  | [] => none
  | v :: rest =>
    match decOperators rest with
    | none => none
    | some (ops, r1) =>
      match decChunk r1 with
      | none => none
      | some (vpk, r2) =>
        match decChunks r2 with
        | none => none
        | some (spks, r3) =>
          match decChunks r3 with
          | none => none
          | some (encs, r4) =>
            match decPayloadOpt r4 with
            | none => none
            | some (pl, r5) => some (ItemState.mk v ops vpk spks encs pl, r5)

/-- Modelled from the spec: the full validation suite of a key-shares item —
version support, validator public key, share-array shapes against the
operator count, share public keys, encrypted shares. -/
def validateItem (it : ItemState) : Except ItemError Unit :=
  if ¬ supportedVersions.contains it.version then
    .error (.unsupportedVersion it.version)
  else if ¬ blsPublicKeyOk it.validatorPublicKey then
    .error (.invalidPublicKey "publicKey")
  else if it.sharePublicKeys.length ≠ it.operators.length ∨
      it.shareEncryptedKeys.length ≠ it.operators.length then
    .error (.arrayShape "shares")
  else if ¬ it.sharePublicKeys.all blsPublicKeyOk then
    .error (.invalidPublicKey "sharePublicKeys")
  else if ¬ it.shareEncryptedKeys.all abiByteStringOk then
    .error (.invalidEncryptedShare "encryptedKeys")
  else .ok ()

/-- Modelled from the spec: `from_document_fragment` — decode, then run the
full validation suite; deserialization never bypasses validation. -/
def deserializeItem (l : List Nat) : Except ItemError ItemState :=
  match decodeItem l with
  | none => .error (.arrayShape "document")
  | some (it, rest) =>
    if rest.isEmpty then
      match validateItem it with
      | .ok _ => .ok it
      | .error e => .error e
    else .error (.arrayShape "document")

theorem decOperator_encOperator (o : OperatorEntry) (rest : List Nat) :
    decOperator (encOperator o ++ rest) = some (o, rest) := by
  simp [encOperator, decOperator, decChunk_encChunk]

theorem decOperatorsN_encOperators (os : List OperatorEntry) :
    ∀ rest : List Nat,
      decOperatorsN os.length ((os.map encOperator).flatten ++ rest) =
        some (os, rest) := by
  induction os with
  | nil => intro rest; simp [decOperatorsN]
  | cons o t ih =>
    intro rest
    simp [decOperatorsN, List.append_assoc, decOperator_encOperator, ih]

theorem decOperators_encOperators (os : List OperatorEntry) (rest : List Nat) :
    decOperators (encOperators os ++ rest) = some (os, rest) := by
  simp [encOperators, decOperators, decOperatorsN_encOperators]

theorem decPayloadOpt_encPayloadOpt (p : Option Payload) (rest : List Nat) :
    decPayloadOpt (encPayloadOpt p ++ rest) = some (p, rest) := by
  cases p with
  | none => simp [encPayloadOpt, decPayloadOpt]
  | some q =>
    simp [encPayloadOpt, decPayloadOpt, List.append_assoc, decChunk_encChunk,
      abiDecodePayload_encode]

theorem decodeItem_serializeItem (it : ItemState) (rest : List Nat) :
    decodeItem (serializeItem it ++ rest) = some (it, rest) := by
  simp [serializeItem, decodeItem, List.append_assoc, decOperators_encOperators,
    decChunk_encChunk, decChunks_encChunks, decPayloadOpt_encPayloadOpt]

/-- C7: serializing a valid item and deserializing the fragment returns the
original item, and every successful deserialization has passed the full
validation suite. -/
theorem item_roundtrip (it : ItemState) (hv : validateItem it = .ok ()) :
    deserializeItem (serializeItem it) = .ok it ∧
    ∀ (l : List Nat) (it2 : ItemState),
      deserializeItem l = .ok it2 → validateItem it2 = .ok () := by
  constructor
  · have hdec : decodeItem (serializeItem it) = some (it, []) := by
      have h := decodeItem_serializeItem it []
      simpa using h
    unfold deserializeItem
    rw [hdec]
    simp [hv]
  · intro l it2 h
    unfold deserializeItem at h
    cases hd : decodeItem l with
    | none => rw [hd] at h; exact absurd h (by simp)
    | some q =>
      rw [hd] at h
      obtain ⟨it3, rest⟩ := q
      dsimp only at h
      by_cases hr : rest.isEmpty = true
      · rw [if_pos hr] at h
        cases hvv : validateItem it3 with
        | ok v =>
          rw [hvv] at h
          simp only [Except.ok.injEq] at h
          subst h
          cases v
          exact hvv
        | error e =>
          rw [hvv] at h
          exact absurd h (by simp)
      · rw [if_neg hr] at h
        exact absurd h (by simp)

/-- A concrete item passing the full validation suite. -/
def sampleItem : ItemState :=
  ItemState.mk 3 [OperatorEntry.mk 1 (List.replicate 48 2)]
    (List.replicate 48 1) [List.replicate 48 3] [[1, 7]] none

/-- Witness for C7 at the concrete valid item `sampleItem`. -/
theorem item_roundtrip_witness :
    deserializeItem (serializeItem sampleItem) = .ok sampleItem ∧
    ∀ (l : List Nat) (it2 : ItemState),
      deserializeItem l = .ok it2 → validateItem it2 = .ok () :=
  item_roundtrip sampleItem (by decide)

/-! ### Key-Shares Collection -/

/-- Modelled from the spec: a key-shares document — the version envelope plus
the ordered items. -/
structure KeySharesDocument where
  version : Nat
  items : List ItemState
  deriving DecidableEq, Repr

/-- Modelled from the spec: `serialize` of a collection — version, item
count, then each item's fragment as an ABI chunk. -/
def serializeDocument (d : KeySharesDocument) : List Nat :=
  d.version :: d.items.length ::
    (d.items.map (fun it => encChunk (serializeItem it))).flatten

/-- Decode a known number of item chunks, each of which must hold exactly one
item fragment. -/
def decItemsN : Nat → List Nat → Option (List ItemState × List Nat)
  | 0, rest => some ([], rest)
  | k + 1, rest =>
    match decChunk rest with
    | none => none
    | some (frag, rest1) =>
      match decodeItem frag with
      | none => none
      | some (it, fragRest) =>
        if fragRest.isEmpty then
          match decItemsN k rest1 with
          | none => none
          | some (its, rest2) => some (it :: its, rest2)
        else none

/-- Validate items left to right, reporting the index and error kind of the
first invalid item. -/
def validateItemsFrom (i : Nat) : List ItemState → Except (Nat × ItemError) Unit
  | [] => .ok ()
  | it :: rest =>
    match validateItem it with
    | .error e => .error (i, e)
    | .ok _ => validateItemsFrom (i + 1) rest

/-- Modelled from the spec: `deserialize(bytes) -> Collection` — parse the
envelope, re-validate every item independently, and fail fast with the first
invalid item's index and error kind; a document is all-or-nothing. -/
def deserializeDocument (l : List Nat) :
    Except (Nat × ItemError) KeySharesDocument :=
  match l with
  | v :: n :: rest =>
    (match decItemsN n rest with
     | none => .error (0, .arrayShape "document")
     | some (its, rest2) =>
       if rest2.isEmpty then
         match validateItemsFrom 0 its with
         | .error ie => .error ie
         | .ok _ => .ok (KeySharesDocument.mk v its)
       else .error (0, .arrayShape "document"))
  | _ => .error (0, .arrayShape "document")

theorem decItemsN_serializeItems (items : List ItemState) :
    ∀ rest : List Nat,
      decItemsN items.length
          ((items.map (fun it => encChunk (serializeItem it))).flatten ++ rest) =
        some (items, rest) := by
  induction items with
  | nil => intro rest; simp [decItemsN]
  | cons a t ih =>
    intro rest
    have hdec : decodeItem (serializeItem a) = some (a, []) := by
      have h := decodeItem_serializeItem a []
      simpa using h
    simp [decItemsN, List.append_assoc, decChunk_encChunk, hdec, ih]

theorem validateItemsFrom_ok_iff (items : List ItemState) :
    ∀ i : Nat, validateItemsFrom i items = .ok () ↔
      ∀ it ∈ items, validateItem it = .ok () := by
  induction items with
  | nil => intro i; simp [validateItemsFrom]
  | cons a t ih =>
    intro i
    cases hv : validateItem a with
    | ok v =>
      cases v
      simp [validateItemsFrom, hv, ih (i + 1)]
    | error e =>
      simp only [validateItemsFrom, hv]
      constructor
      · intro h
        exact absurd h (by simp)
      · intro h
        have := h a (by simp)
        rw [hv] at this
        exact absurd this (by simp)

theorem validateItemsFrom_error_first (items : List ItemState) :
    ∀ (i j : Nat) (e : ItemError), validateItemsFrom i items = .error (j, e) →
      ∃ k : Nat, j = i + k ∧
        (∃ it, items[k]? = some it ∧ validateItem it = .error e) ∧
        ∀ m, m < k → ∀ it2, items[m]? = some it2 → validateItem it2 = .ok () := by
  induction items with
  | nil =>
    intro i j e h
    exact absurd h (by simp [validateItemsFrom])
  | cons a t ih =>
    intro i j e h
    unfold validateItemsFrom at h
    cases hv : validateItem a with
    | error e2 =>
      rw [hv] at h
      simp only [Except.error.injEq, Prod.mk.injEq] at h
      obtain ⟨h1, h2⟩ := h
      refine ⟨0, by omega, ⟨a, by simp, by rw [hv, h2]⟩, ?_⟩
      intro m hm
      exact absurd hm (Nat.not_lt_zero m)
    | ok v =>
      rw [hv] at h
      obtain ⟨k, hk, hwit, hbefore⟩ := ih (i + 1) j e h
      refine ⟨k + 1, by omega, by simpa using hwit, ?_⟩
      intro m hm it2 hit2
      cases m with
      | zero =>
        simp only [List.getElem?_cons_zero, Option.some.injEq] at hit2
        cases v
        rw [← hit2]
        exact hv
      | succ m2 =>
        have hm2 : m2 < k := by omega
        exact hbefore m2 hm2 it2 (by simpa using hit2)

/-- C9: deserializing a serialized document is all-or-nothing — when every
item passes the full validation suite the whole collection is returned
intact, and when validation fails the result is exactly the error naming the
first invalid item's index and error kind (every item before that index being
valid), with no collection returned. -/
theorem deserializeDocument_all_or_nothing (version : Nat)
    (items : List ItemState) :
    ((∀ it ∈ items, validateItem it = .ok ()) →
      deserializeDocument (serializeDocument (KeySharesDocument.mk version items)) =
        .ok (KeySharesDocument.mk version items)) ∧
    (∀ (j : Nat) (e : ItemError), validateItemsFrom 0 items = .error (j, e) →
      deserializeDocument (serializeDocument (KeySharesDocument.mk version items)) =
        .error (j, e) ∧
      (∃ it, items[j]? = some it ∧ validateItem it = .error e) ∧
      (∀ m, m < j → ∀ it2, items[m]? = some it2 → validateItem it2 = .ok ()) ∧
      (∀ d : KeySharesDocument,
        deserializeDocument (serializeDocument (KeySharesDocument.mk version items)) ≠
          .ok d)) := by
  have hdec : decItemsN items.length
      ((items.map (fun it => encChunk (serializeItem it))).flatten ++ []) =
        some (items, []) := decItemsN_serializeItems items []
  rw [List.append_nil] at hdec
  constructor
  · intro hall
    unfold deserializeDocument serializeDocument
    dsimp only
    rw [hdec]
    dsimp only
    simp only [List.isEmpty_nil, if_true]
    rw [(validateItemsFrom_ok_iff items 0).mpr hall]
  · intro j e h
    have herr : deserializeDocument
        (serializeDocument (KeySharesDocument.mk version items)) = .error (j, e) := by
      unfold deserializeDocument serializeDocument
      dsimp only
      rw [hdec]
      dsimp only
      simp only [List.isEmpty_nil, if_true]
      rw [h]
    obtain ⟨k, hk, hwit, hbefore⟩ := validateItemsFrom_error_first items 0 j e h
    have hjk : j = k := by omega
    subst hjk
    refine ⟨herr, hwit, hbefore, fun d hd => ?_⟩
    rw [herr] at hd
    exact Except.noConfusion hd

/-- An item failing the shape check: three operators against two share
entries. -/
def badShapeItem : ItemState :=
  ItemState.mk 3
    [OperatorEntry.mk 1 (List.replicate 48 2), OperatorEntry.mk 2 (List.replicate 48 2),
      OperatorEntry.mk 3 (List.replicate 48 2)]
    (List.replicate 48 1) [List.replicate 48 3, List.replicate 48 3]
    [[1, 7], [1, 8]] none

/-- Witness for C9: a document whose first item is valid and whose second
item has two share entries against three operators fails with
`ArrayShapeError` at index 1, while the all-valid document round-trips. -/
theorem deserializeDocument_all_or_nothing_witness :
    deserializeDocument (serializeDocument (KeySharesDocument.mk 3 [sampleItem])) =
      .ok (KeySharesDocument.mk 3 [sampleItem]) ∧
    (deserializeDocument
        (serializeDocument (KeySharesDocument.mk 3 [sampleItem, badShapeItem])) =
      .error (1, .arrayShape "shares") ∧
      (∃ it, [sampleItem, badShapeItem][1]? = some it ∧
        validateItem it = .error (.arrayShape "shares")) ∧
      (∀ m, m < 1 → ∀ it2, [sampleItem, badShapeItem][m]? = some it2 →
        validateItem it2 = .ok ()) ∧
      (∀ d : KeySharesDocument,
        deserializeDocument
            (serializeDocument (KeySharesDocument.mk 3 [sampleItem, badShapeItem])) ≠
          .ok d)) :=
  ⟨(deserializeDocument_all_or_nothing 3 [sampleItem]).1 (by decide),
   (deserializeDocument_all_or_nothing 3 [sampleItem, badShapeItem]).2 1
     (ItemError.arrayShape "shares") (by decide)⟩

end SsvKeys
